import Mathlib

/-!
Shallow embedding of the accessible modal-form widget
(`src/Modal.tsx`, `src/Page.tsx`, `src/types.ts`).

Layer 1 models the validation functions (`validateField`, `validateForm`),
layer 2 the form-event handlers (`handleSubmit`, `handleInputChange`,
`handleBlur`), layer 3 the focus-trap key handler, and layer 4 a combined
Page + Modal event machine covering the open/close lifecycle, the deferred
result slot, and the document-level resources (key listener, scroll lock,
focus-delay timer, focus restore).
-/

namespace ModalForm

/-- The JavaScript whitespace class: the set matched by `\s` in a JS regular
expression, which is also exactly the set stripped by `String.prototype.trim`
(WhiteSpace ∪ LineTerminator code points). -/
def isSpaceChar (c : Char) : Bool :=
  let n := c.toNat
  n == 0x9 || n == 0xA || n == 0xB || n == 0xC || n == 0xD || n == 0x20 ||
  n == 0xA0 || n == 0x1680 ||
  (decide (0x2000 ≤ n) && decide (n ≤ 0x200A)) ||
  n == 0x2028 || n == 0x2029 || n == 0x202F || n == 0x205F ||
  n == 0x3000 || n == 0xFEFF

/-- `value.trim()` on the character list: strip JS whitespace at both ends. -/
def jsTrimList (l : List Char) : List Char :=
  ((l.dropWhile isSpaceChar).reverse.dropWhile isSpaceChar).reverse

/-- `value.trim()` on a string. -/
def jsTrim (s : String) : String :=
  String.mk (jsTrimList s.toList)

/-- The character class `[^\s@]` of the email regex in `Modal.tsx` line 34:
anything that is neither JS whitespace nor `@`. -/
def atomChar (c : Char) : Bool :=
  !isSpaceChar c && !(c = '@')

/-- The character class `[^\s]` named by the spec's shape check
(`non-space-chars`): anything that is not JS whitespace. -/
def nonSpaceChar (c : Char) : Bool :=
  !isSpaceChar c

/-- Semantics of the anchored pattern `^X+@X+\.X+$` over a character class
`X = cls`: the string splits as a nonempty `cls` run, a literal `@`, a
nonempty `cls` run, a literal `.`, and a nonempty `cls` run. -/
def matchesShape (cls : Char → Bool) (l : List Char) : Prop :=
  ∃ a b c : List Char,
    l = a ++ '@' :: (b ++ '.' :: c) ∧
    a ≠ [] ∧ b ≠ [] ∧ c ≠ [] ∧
    (∀ x ∈ a, cls x = true) ∧ (∀ x ∈ b, cls x = true) ∧ (∀ x ∈ c, cls x = true)

/-- Executable matcher for `^X+@X+\.X+$`: search for the index `i` of the
pattern's `@` and the index `j` of the pattern's `.`, with nonempty all-`cls`
segments before `i`, between `i` and `j`, and after `j`. -/
def shapeTest (cls : Char → Bool) (l : List Char) : Bool :=
  (List.range l.length).any fun i =>
    (List.range l.length).any fun j =>
      decide (0 < i) && decide (i + 1 < j) && decide (j + 1 < l.length) &&
      decide (l.getD i ' ' = '@') && decide (l.getD j ' ' = '.') &&
      (l.take i).all cls &&
      ((l.take j).drop (i + 1)).all cls &&
      (l.drop (j + 1)).all cls

/-- The email regex test `/^[^\s@]+@[^\s@]+\.[^\s@]+$/.test(value)`
(`Modal.tsx` lines 34-35). -/
def emailRegexTest (s : String) : Bool :=
  shapeTest atomChar s.toList

/-- The two form fields of `FormData` (`types.ts`). -/
inductive Field where
  | name
  | email
deriving DecidableEq

/-- Error message constants from `Modal.tsx`. -/
def nameRequiredMsg : String := "이름을 입력해주세요."

def nameTooShortMsg : String := "이름은 2글자 이상 입력해주세요."

def emailRequiredMsg : String := "이메일을 입력해주세요."

def emailFormatMsg : String := "올바른 이메일 형식을 입력해주세요."

/-- `validateField(field, value)` from `Modal.tsx` lines 26-40: the name must
be nonempty after trimming and at least 2 characters after trimming; the email
must be nonempty after trimming and pass the regex test on the untrimmed
value. Returns `some message` on failure, `none` otherwise. -/
def validateField (field : Field) (value : String) : Option String :=
  match field with
  | .name =>
      if jsTrim value = "" then some nameRequiredMsg
      else if (jsTrim value).length < 2 then some nameTooShortMsg
      else none
  | .email =>
      if jsTrim value = "" then some emailRequiredMsg
      else if !emailRegexTest value then some emailFormatMsg
      else none

/-- `FormData` (`types.ts`): the two field values. -/
structure FormData where
  name : String
  email : String
deriving DecidableEq

/-- `FormErrors` (`types.ts`): optional per-field error message. A field key
absent from the JS object is modelled as `none`. -/
structure FormErrors where
  name : Option String
  email : Option String
deriving DecidableEq

/-- The per-field touched flags (`Partial<Record<keyof FormData, boolean>>`
in `Modal.tsx` line 11); an absent key is modelled as `false`. -/
structure TouchedFlags where
  name : Bool
  email : Bool
deriving DecidableEq

/-- `validateForm(data)` from `Modal.tsx` lines 42-49: apply `validateField`
to each field, recording only the fields that produced an error. -/
def validateForm (data : FormData) : FormErrors :=
  { name := validateField .name data.name
    email := validateField .email data.email }

/-- `Object.keys(formErrors).length === 0` (`Modal.tsx` line 142):
`validateForm` only inserts a key when the field produced an error, so the
object is empty exactly when both fields are error-free. -/
def hasNoErrors (e : FormErrors) : Bool :=
  e.name.isNone && e.email.isNone

/-! ## Layer 2: the Modal component's form state and event handlers -/

/-- The three `useState` slots of the `Modal` component
(`Modal.tsx` lines 6-11). -/
structure FormState where
  values : FormData
  errors : FormErrors
  touched : TouchedFlags
deriving DecidableEq

/-- The `useState` initial values: empty strings, no errors, nothing
touched. -/
def initialFormState : FormState :=
  { values := { name := "", email := "" }
    errors := { name := none, email := none }
    touched := { name := false, email := false } }

/-- Read `formData[field]`. -/
def getValue (d : FormData) (f : Field) : String :=
  match f with
  | .name => d.name
  | .email => d.email

/-- The spread update `{ ...prev, [field]: value }` on `FormData`. -/
def setValue (d : FormData) (f : Field) (v : String) : FormData :=
  match f with
  | .name => { d with name := v }
  | .email => { d with email := v }

/-- Read the stored error of a field. -/
def getError (e : FormErrors) (f : Field) : Option String :=
  match f with
  | .name => e.name
  | .email => e.email

/-- The spread update `{ ...prev, [field]: error }` on `FormErrors` (storing
`undefined` under the key behaves as no error for every reader). -/
def setError (e : FormErrors) (f : Field) (v : Option String) : FormErrors :=
  match f with
  | .name => { e with name := v }
  | .email => { e with email := v }

/-- Read `touched[field]` (an absent key reads as `false`). -/
def getTouched (t : TouchedFlags) (f : Field) : Bool :=
  match f with
  | .name => t.name
  | .email => t.email

/-- The spread update `{ ...prev, [field]: b }` on the touched flags. -/
def setTouched (t : TouchedFlags) (f : Field) (b : Bool) : TouchedFlags :=
  match f with
  | .name => { t with name := b }
  | .email => { t with email := b }

/-- `{ name: true, email: true }` (`Modal.tsx` line 136). -/
def allTouched : TouchedFlags :=
  { name := true, email := true }

/-- `handleSubmit` (`Modal.tsx` lines 132-149): mark every field touched,
store the result of a full validation, and if it produced no error call
`onSubmit(formData)` and reset the three state slots to their initial
values. The second component records the `onSubmit` invocations made
during the handler (the argument of each call, in order). -/
def handleSubmit (fs : FormState) : FormState × List FormData :=
  let fs1 := { fs with touched := allTouched }
  let formErrors := validateForm fs.values
  let fs2 := { fs1 with errors := formErrors }
  if hasNoErrors formErrors then
    (initialFormState, [fs2.values])
  else
    (fs2, [])

/-- `handleInputChange(field, value)` (`Modal.tsx` lines 151-159): store the
new value; only when the field is already touched, re-validate the new value
and store the outcome. -/
def handleInputChange (fs : FormState) (f : Field) (v : String) : FormState :=
  let fs1 := { fs with values := setValue fs.values f v }
  if getTouched fs.touched f then
    { fs1 with errors := setError fs1.errors f (validateField f v) }
  else
    fs1

/-- `handleBlur(field)` (`Modal.tsx` lines 161-165): mark the field touched
and store the validation of its current value. -/
def handleBlur (fs : FormState) (f : Field) : FormState :=
  { fs with
      touched := setTouched fs.touched f true
      errors := setError fs.errors f (validateField f (getValue fs.values f)) }

/-- A form-level event: an input change or a blur on one field. -/
inductive FieldEv where
  | change (f : Field) (v : String)
  | blurField (f : Field)
deriving DecidableEq

/-- Dispatch one form-level event to its handler. -/
def formStep (fs : FormState) (e : FieldEv) : FormState :=
  match e with
  | .change f v => handleInputChange fs f v
  | .blurField f => handleBlur fs f

/-- Run a sequence of form-level events. -/
def formRun (fs : FormState) (evs : List FieldEv) : FormState :=
  evs.foldl formStep fs

/-! ## Layer 3: the focus-trap branch of the document key listener -/

/-- The `Tab` branch of `handleKeyDown` (`Modal.tsx` lines 82-102).
`focusables` is the ordered list returned by `getFocusableElements`,
`contained e` models `modalRef.current.contains(e)`, `active` is
`document.activeElement`, `shift` is `e.shiftKey`. The result is
`some target` when the handler prevents the default and moves focus to
`target`, and `none` when the default browser behavior is left to run.
Elements are abstract (`Nat`). -/
def handleTab (focusables : List Nat) (contained : Nat → Bool)
    (active : Nat) (shift : Bool) : Option Nat :=
  match focusables with
  | [] => none
  | f :: rest =>
      let lastElement := (f :: rest).getLastD f
      if shift then
        if active = f ∨ contained active = false then some lastElement
        else none
      else
        if active = lastElement ∨ contained active = false then some f
        else none

/-! ## Layer 4: the combined Page + Modal lifecycle machine

`Page.tsx` holds `modalState : { isOpen, resolve? }` and renders `<Modal>`
unconditionally, so the Modal component instance (and its `useState` slots)
persists while `isOpen` is `false`. Promises are modelled by numbering each
`openFormModal` call with a fresh request id; delivering a fulfillment to a
promise appends `(id, result)` to a log. Document-level state (focus, scroll
lock, the registered key listener, the focus-delay timer) is explicit, as are
ghost counters of `onClose` invocations. -/

/-- `ModalResult = FormData | null` (`types.ts`). -/
abbrev ModalResult := Option FormData

/-- The whole-system state: Page state, Modal form state, request-id
bookkeeping for the deferred results, and document-level resources. -/
structure SysState where
  isOpen : Bool
  pendingResolve : Option Nat
  nextId : Nat
  resolutions : List (Nat × ModalResult)
  form : FormState
  docFocus : Nat
  savedFocus : Option Nat
  scrollLocked : Bool
  listenerOn : Bool
  timerOn : Bool
  closeCalls : Nat
deriving DecidableEq

/-- The element id that `firstInputRef` focuses when the focus-delay timer
fires; element `0` is the page's open button. -/
def firstInputElem : Nat := 1

/-- The initial system state: modal closed, no pending request, empty form,
focus on the page. -/
def initState : SysState :=
  { isOpen := false, pendingResolve := none, nextId := 0, resolutions := []
    form := initialFormState, docFocus := 0, savedFocus := none
    scrollLocked := false, listenerOn := false, timerOn := false
    closeCalls := 0 }

/-- The open-transition body of the Modal `useEffect` (`Modal.tsx` lines
66-112): save the active element, lock scrolling, register the key listener,
start the focus-delay timer. -/
def setupEffect (s : SysState) : SysState :=
  { s with
      savedFocus := some s.docFocus
      scrollLocked := true
      listenerOn := true
      timerOn := true }

/-- The `useEffect` cleanup (`Modal.tsx` lines 114-127): unregister the key
listener, restore scrolling, clear the focus-delay timer, and focus the saved
element if one was captured. -/
def teardownEffect (s : SysState) : SysState :=
  { s with
      listenerOn := false
      scrollLocked := false
      timerOn := false
      docFocus := s.savedFocus.getD s.docFocus }

/-- The common body of the two Page handlers (`Page.tsx` lines 14-27): if a
resolve is pending, deliver the result `r` to it; then set
`{ isOpen: false }`, which also drops the resolve slot. -/
def deliver (r : ModalResult) (s : SysState) : SysState :=
  let s1 :=
    match s.pendingResolve with
    | some id => { s with resolutions := s.resolutions ++ [(id, r)] }
    | none => s
  { s1 with pendingResolve := none, isOpen := false }

/-- `handleCloseModal` (`Page.tsx` lines 14-19): deliver `null` if a resolve
is pending, then close. -/
def pageClose : SysState → SysState := deliver none

/-- `handleFormSubmit(data)` (`Page.tsx` lines 21-27): deliver the submitted
data if a resolve is pending, then close. -/
def pageSubmit (d : FormData) : SysState → SysState := deliver (some d)

/-- An `onClose` invocation from inside the Modal: count the call, run the
Page close handler, and (since `isOpen` flips to `false`) run the effect
cleanup. -/
def closeViaCallback (s : SysState) : SysState :=
  teardownEffect (pageClose { s with closeCalls := s.closeCalls + 1 })

/-- A whole-system event. -/
inductive Ev where
  | openModal
  | escapeKey
  | backdropClick
  | cancelClick
  | submitForm
  | input (f : Field) (v : String)
  | blurField (f : Field)
  | timerFires
deriving DecidableEq

/-- One step of the whole system.

* `openModal` is `openFormModal` (`Page.tsx` lines 8-12): a fresh deferred
  result is put in the slot and the modal switches to open; if it was closed
  the Modal effect setup runs (the Modal's form state is NOT reset — the
  component instance persists across opens).
* `escapeKey` is the `Escape` branch of the document key listener
  (`Modal.tsx` lines 77-80); it runs only while the listener is registered
  and invokes `onClose`.
* `backdropClick` (`handleOverlayClick`, lines 168-172) and `cancelClick`
  (the cancel button, line 259) invoke `onClose` while the modal is open.
* `submitForm` runs `handleSubmit`; when it calls `onSubmit(data)`, the Page
  delivers `data` and closes, which triggers the effect cleanup.
* `input` / `blurField` run the form handlers while open.
* `timerFires` is the focus-delay timeout (lines 110-112) moving focus to
  the first input. -/
def step (s : SysState) (e : Ev) : SysState :=
  match e with
  | .openModal =>
      let s1 := { s with pendingResolve := some s.nextId, nextId := s.nextId + 1
                         isOpen := true }
      if s.isOpen then s1 else setupEffect s1
  | .escapeKey => if s.listenerOn then closeViaCallback s else s
  | .backdropClick => if s.isOpen then closeViaCallback s else s
  | .cancelClick => if s.isOpen then closeViaCallback s else s
  | .submitForm =>
      if s.isOpen then
        let r := handleSubmit s.form
        match r.2 with
        | [] => { s with form := r.1 }
        | d :: _ => teardownEffect (pageSubmit d { s with form := r.1 })
      else s
  | .input f v => if s.isOpen then { s with form := handleInputChange s.form f v } else s
  | .blurField f => if s.isOpen then { s with form := handleBlur s.form f } else s
  | .timerFires =>
      if s.timerOn then { s with timerOn := false, docFocus := firstInputElem } else s

/-- Run a sequence of system events. -/
def run (s : SysState) (evs : List Ev) : SysState :=
  evs.foldl step s

/-- The request ids that have received a fulfillment, in delivery order. -/
def resolvedIds (s : SysState) : List Nat :=
  s.resolutions.map Prod.fst

/-- The document-level resource view: (key listener registered, scroll
locked, focus-delay timer pending, focused element). -/
def docState (s : SysState) : Bool × Bool × Bool × Nat :=
  (s.listenerOn, s.scrollLocked, s.timerOn, s.docFocus)

/-! ## Theorems -/

/-- C2: for every string `v`, `validateField('name', v)` returns an error
message if and only if `trim(v)` is empty or `trim(v)` has fewer than 2
characters. -/
theorem validateField_name_error_iff (v : String) :
    (validateField Field.name v).isSome = true ↔
      (jsTrim v = "" ∨ (jsTrim v).length < 2) := by
  unfold validateField
  by_cases h : jsTrim v = "" <;> by_cases h2 : (jsTrim v).length < 2 <;>
    simp [h, h2]

/-- Witness for C2: the name "A" trims to a 1-character string and is
rejected. -/
theorem validateField_name_error_iff_witness :
    (validateField Field.name "A").isSome = true :=
  (validateField_name_error_iff "A").mpr (Or.inr (by decide))

/-- C1: `handleSubmit` marks both fields touched and stores the full
validation result; when no field has an error it invokes the submit callback
exactly once with the current values and resets values, errors and touched
flags to their initial empty state; when some field has an error it makes no
callback invocation. -/
theorem handleSubmit_spec (fs : FormState) :
    (hasNoErrors (validateForm fs.values) = true →
      handleSubmit fs = (initialFormState, [fs.values])) ∧
    (hasNoErrors (validateForm fs.values) = false →
      handleSubmit fs =
        ({ fs with errors := validateForm fs.values, touched := allTouched }, [])) := by
  constructor <;> intro h <;> simp [handleSubmit, h]

/-- Witness for C1: submitting name "Alice", email "alice@example.com" is
accepted, the callback receives exactly those values once, and the form
resets. -/
theorem handleSubmit_spec_witness :
    handleSubmit ⟨⟨"Alice", "alice@example.com"⟩, ⟨none, none⟩, ⟨false, false⟩⟩ =
      (initialFormState, [⟨"Alice", "alice@example.com"⟩]) :=
  (handleSubmit_spec _).1 (by decide)

/-- C10: when the full validation of the current values has at least one
error, `handleSubmit` leaves the stored values exactly unchanged and only
updates the errors and the touched flags. -/
theorem handleSubmit_invalid_atomic (fs : FormState)
    (h : hasNoErrors (validateForm fs.values) = false) :
    (handleSubmit fs).1.values = fs.values ∧
    (handleSubmit fs).1.errors = validateForm fs.values ∧
    (handleSubmit fs).1.touched = allTouched ∧
    (handleSubmit fs).2 = [] := by
  simp [handleSubmit, h]

/-- Witness for C10: submitting name "A", email "a@b.com" is blocked (name
too short) and the values survive unchanged. -/
theorem handleSubmit_invalid_atomic_witness :
    (handleSubmit ⟨⟨"A", "a@b.com"⟩, ⟨none, none⟩, ⟨false, false⟩⟩).1.values =
      ⟨"A", "a@b.com"⟩ :=
  (handleSubmit_invalid_atomic ⟨⟨"A", "a@b.com"⟩, ⟨none, none⟩, ⟨false, false⟩⟩
    (by decide)).1

/-- Updating one field's stored error leaves the other field's error
unchanged. -/
theorem getError_setError_ne (e : FormErrors) {f g : Field} (h : g ≠ f)
    (v : Option String) : getError (setError e g v) f = getError e f := by
  cases f <;> cases g <;> simp_all [getError, setError]

/-- Updating one field's touched flag leaves the other field's flag
unchanged. -/
theorem getTouched_setTouched_ne (t : TouchedFlags) {f g : Field} (h : g ≠ f)
    (b : Bool) : getTouched (setTouched t g b) f = getTouched t f := by
  cases f <;> cases g <;> simp_all [getTouched, setTouched]

/-- One form event that is not a blur of field `f` keeps `f` untouched and
error-free. -/
theorem untouched_step (fs : FormState) (f : Field) (e : FieldEv)
    (hne : e ≠ FieldEv.blurField f)
    (h1 : getTouched fs.touched f = false)
    (h2 : getError fs.errors f = none) :
    getTouched (formStep fs e).touched f = false ∧
    getError (formStep fs e).errors f = none := by
  cases e with
  | change g v =>
      by_cases hg : g = f
      · subst hg
        simp [formStep, handleInputChange, h1, h2]
      · simp only [formStep, handleInputChange]
        by_cases ht : getTouched fs.touched g = true
        · simp [ht, getError_setError_ne _ hg, h1, h2]
        · simp_all
  | blurField g =>
      have hg : g ≠ f := by intro hc; exact hne (by rw [hc])
      simp [formStep, handleBlur, getError_setError_ne _ hg,
        getTouched_setTouched_ne _ hg, h1, h2]

/-- A run of form events containing no blur of field `f` keeps `f` untouched
and error-free. -/
theorem untouched_run (evs : List FieldEv) (f : Field) (fs : FormState)
    (hev : ∀ e ∈ evs, e ≠ FieldEv.blurField f)
    (h1 : getTouched fs.touched f = false)
    (h2 : getError fs.errors f = none) :
    getTouched (formRun fs evs).touched f = false ∧
    getError (formRun fs evs).errors f = none := by
  induction evs generalizing fs with
  | nil => exact ⟨h1, h2⟩
  | cons e rest ih =>
      have hstep := untouched_step fs f e (hev e (by simp)) h1 h2
      have : formRun fs (e :: rest) = formRun (formStep fs e) rest := rfl
      rw [this]
      exact ih (formStep fs e) (fun x hx => hev x (by simp [hx]))
        hstep.1 hstep.2

/-- C4: the touch/validation policy of the input handlers. An input change on
an untouched field only updates the stored value (the stored errors are
untouched); an input change on a touched field also stores the validation of
the new value; a blur always marks the field touched and stores the
validation of its current value; consequently, along any sequence of
input-change and blur events from the initial state that never blurs field
`f`, field `f` stays untouched and never acquires a stored error. -/
theorem touch_validation_policy :
    (∀ (fs : FormState) (f : Field) (v : String),
      getTouched fs.touched f = false →
        handleInputChange fs f v = { fs with values := setValue fs.values f v }) ∧
    (∀ (fs : FormState) (f : Field) (v : String),
      getTouched fs.touched f = true →
        handleInputChange fs f v =
          { fs with
              values := setValue fs.values f v
              errors := setError fs.errors f (validateField f v) }) ∧
    (∀ (fs : FormState) (f : Field),
      handleBlur fs f =
        { fs with
            touched := setTouched fs.touched f true
            errors := setError fs.errors f (validateField f (getValue fs.values f)) }) ∧
    (∀ (evs : List FieldEv) (f : Field),
      (∀ e ∈ evs, e ≠ FieldEv.blurField f) →
        getTouched (formRun initialFormState evs).touched f = false ∧
        getError (formRun initialFormState evs).errors f = none) := by
  refine ⟨?_, ?_, ?_, ?_⟩
  · intro fs f v h
    simp [handleInputChange, h]
  · intro fs f v h
    simp [handleInputChange, h]
  · intro fs f
    rfl
  · intro evs f hev
    exact untouched_run evs f initialFormState hev (by cases f <;> rfl)
      (by cases f <;> rfl)

/-- Witness for C4: typing an invalid email into the untouched email field
stores no error; blurring the untouched email field immediately stores the
validation error. -/
theorem touch_validation_policy_witness :
    getError (formRun initialFormState [FieldEv.change Field.email "bad"]).errors
        Field.email = none ∧
    handleBlur initialFormState Field.email =
      { initialFormState with
          touched := setTouched initialFormState.touched Field.email true
          errors := setError initialFormState.errors Field.email
            (validateField Field.email "") } :=
  ⟨(touch_validation_policy.2.2.2 [FieldEv.change Field.email "bad"]
      Field.email (by decide)).2,
   touch_validation_policy.2.2.1 initialFormState Field.email⟩

/-- C6: the focus-trap branch of the key listener. With no focusable
elements nothing happens; on Shift+Tab with focus on the first focusable
element or outside the dialog, focus is redirected to the last; on Tab with
focus on the last focusable element or outside the dialog, focus is
redirected to the first. -/
theorem handleTab_spec (contained : Nat → Bool) (active : Nat) :
    (∀ shift, handleTab [] contained active shift = none) ∧
    (∀ (f : Nat) (rest : List Nat),
      ((active = f ∨ contained active = false) →
        handleTab (f :: rest) contained active true =
          some ((f :: rest).getLastD f)) ∧
      ((active = (f :: rest).getLastD f ∨ contained active = false) →
        handleTab (f :: rest) contained active false = some f)) := by
  refine ⟨fun shift => rfl, fun f rest => ⟨fun h => ?_, fun h => ?_⟩⟩
  · simp [handleTab, h]
  · rw [List.getLastD_eq_getLast?] at h
    simp [handleTab, h]

/-- The executable matcher `shapeTest` agrees with the split semantics
`matchesShape` of the anchored pattern `^X+@X+\.X+$`. -/
theorem shapeTest_iff_matchesShape (cls : Char → Bool) (l : List Char) :
    shapeTest cls l = true ↔ matchesShape cls l := by
  constructor
  · intro h
    simp only [shapeTest, List.any_eq_true, List.mem_range, Bool.and_eq_true,
      decide_eq_true_eq, List.all_eq_true] at h
    obtain ⟨i, hi, j, hj,
      ⟨⟨⟨⟨⟨⟨h0i, hij⟩, hjl⟩, hat⟩, hdot⟩, ha⟩, hb⟩, hc⟩ := h
    have hjl2 : j < l.length := Nat.lt_of_succ_lt hjl
    have hil : i < l.length := Nat.lt_trans (Nat.lt_of_succ_lt hij) hjl2
    have hiat : l[i] = '@' := by
      have hgd : l.getD i ' ' = l[i] := by
        simp [List.getD_eq_getElem?_getD, List.getElem?_eq_getElem hil]
      rw [← hgd]
      exact hat
    have hjdot : l[j] = '.' := by
      have hgd : l.getD j ' ' = l[j] := by
        simp [List.getD_eq_getElem?_getD, List.getElem?_eq_getElem hjl2]
      rw [← hgd]
      exact hdot
    refine ⟨l.take i, (l.take j).drop (i + 1), l.drop (j + 1), ?_, ?_, ?_, ?_,
      ha, hb, hc⟩
    · have e1 : l = l.take i ++ l.drop i := (List.take_append_drop i l).symm
      have e2 : l.drop i = l[i] :: l.drop (i + 1) := List.drop_eq_getElem_cons hil
      have e3 : l.drop (i + 1) = (l.take j).drop (i + 1) ++ l.drop j := by
        conv_lhs => rw [← List.take_append_drop j l]
        exact List.drop_append_of_le_length
          (by rw [List.length_take]; omega)
      have e4 : l.drop j = l[j] :: l.drop (j + 1) := List.drop_eq_getElem_cons hjl2
      rw [hiat] at e2
      rw [hjdot] at e4
      conv_lhs => rw [e1, e2, e3, e4]
    · have : (l.take i).length = i := by rw [List.length_take]; omega
      intro hnil
      rw [hnil] at this
      simp at this
      omega
    · have : ((l.take j).drop (i + 1)).length = j - (i + 1) := by
        rw [List.length_drop, List.length_take]; omega
      intro hnil
      rw [hnil] at this
      simp at this
      omega
    · have : (l.drop (j + 1)).length = l.length - (j + 1) := by
        rw [List.length_drop]
      intro hnil
      rw [hnil] at this
      simp at this
      omega
  · rintro ⟨a, b, c, rfl, ha, hb, hc, hacls, hbcls, hccls⟩
    have hL : (a ++ '@' :: (b ++ '.' :: c)).length =
        a.length + b.length + c.length + 2 := by
      simp
      omega
    have hassoc : a ++ '@' :: (b ++ '.' :: c) =
        ((a ++ ['@']) ++ b) ++ '.' :: c := by
      simp
    have htake1 : (a ++ '@' :: (b ++ '.' :: c)).take a.length = a :=
      List.take_left a _
    have hdrop1 : (a ++ '@' :: (b ++ '.' :: c)).drop a.length =
        '@' :: (b ++ '.' :: c) := List.drop_left a _
    have hdrop2 : (a ++ '@' :: (b ++ '.' :: c)).drop (a.length + 1) =
        b ++ '.' :: c := by
      rw [hassoc, List.append_assoc]
      exact List.drop_left' (by simp)
    have htake2 : (a ++ '@' :: (b ++ '.' :: c)).take (a.length + 1 + b.length) =
        (a ++ ['@']) ++ b := by
      rw [hassoc]
      exact List.take_left' (by simp; omega)
    have hdrop3 : (a ++ '@' :: (b ++ '.' :: c)).drop (a.length + 1 + b.length) =
        '.' :: c := by
      rw [hassoc]
      exact List.drop_left' (by simp; omega)
    have hdrop4 : (a ++ '@' :: (b ++ '.' :: c)).drop (a.length + 1 + b.length + 1) =
        c := by
      have := congrArg (List.drop 1) hdrop3
      simpa [List.drop_drop] using this
    have hget1 : (a ++ '@' :: (b ++ '.' :: c)).getD a.length ' ' = '@' := by
      rw [List.getD_eq_getElem?_getD, ← List.head?_drop, hdrop1]
      rfl
    have hget2 : (a ++ '@' :: (b ++ '.' :: c)).getD (a.length + 1 + b.length) ' ' =
        '.' := by
      rw [List.getD_eq_getElem?_getD, ← List.head?_drop, hdrop3]
      rfl
    simp only [shapeTest, List.any_eq_true, List.mem_range, Bool.and_eq_true,
      decide_eq_true_eq, List.all_eq_true]
    have hal : 0 < a.length := List.length_pos.mpr ha
    have hbl : 0 < b.length := List.length_pos.mpr hb
    have hcl : 0 < c.length := List.length_pos.mpr hc
    rw [hL]
    refine ⟨a.length, by omega, a.length + 1 + b.length, by omega,
      ⟨⟨⟨⟨⟨⟨by omega, by omega⟩, by omega⟩, hget1⟩, hget2⟩, ?_⟩, ?_⟩, ?_⟩
    · rw [htake1]
      exact hacls
    · rw [htake2]
      have : ((a ++ ['@']) ++ b).drop (a.length + 1) = b :=
        List.drop_left' (by simp)
      rw [this]
      exact hbcls
    · rw [hdrop4]
      exact hccls

/-- C3 counterexample: on `v = "a@b@c.d"`, the code's `validateField` returns
an error although `trim(v)` is nonempty and `v` matches the shape
`non-space-chars @ non-space-chars . non-space-chars` stated by the claim
(the class of which contains `@`), so the claimed equivalence fails. -/
theorem email_shape_claim_counterexample :
    (validateField Field.email "a@b@c.d").isSome = true ∧
    ¬ jsTrim "a@b@c.d" = "" ∧
    matchesShape nonSpaceChar "a@b@c.d".toList :=
  ⟨by decide, by decide,
   ⟨['a'], ['b', '@', 'c'], ['d'], by decide⟩⟩

/-- C3 (amended): `validateField('email', v)` returns an error message if and
only if `trim(v)` is empty or `v` fails the anchored shape
`(non-space-non-@)+ @ (non-space-non-@)+ . (non-space-non-@)+` — the
character class excludes `@` as well as whitespace. -/
theorem validateField_email_error_iff (v : String) :
    (validateField Field.email v).isSome = true ↔
      (jsTrim v = "" ∨ ¬ matchesShape atomChar v.toList) := by
  unfold validateField
  by_cases h : jsTrim v = ""
  · simp [h]
  · rw [← shapeTest_iff_matchesShape]
    have hrw : emailRegexTest v = shapeTest atomChar v.toList := rfl
    rw [hrw]
    by_cases h2 : shapeTest atomChar v.toList = true
    · simp [h, h2]
    · rw [Bool.not_eq_true] at h2
      simp [h, h2]

/-- Witness for C3 (amended): "a@b@c.d" has a second `@`, fails the
`[^\s@]` shape, and is rejected. -/
theorem validateField_email_error_iff_witness :
    (validateField Field.email "a@b@c.d").isSome = true :=
  (validateField_email_error_iff "a@b@c.d").mpr
    (Or.inr (by rw [← shapeTest_iff_matchesShape]; decide))

/-- Witness for C6: in a dialog whose focusable elements are `[4, 5, 6]`,
Tab from 6 redirects to 4, Shift+Tab from 4 redirects to 6, and an empty
dialog does nothing. -/
theorem handleTab_spec_witness :
    handleTab [4, 5, 6] (fun _ => true) 6 false = some 4 ∧
    handleTab [4, 5, 6] (fun _ => true) 4 true = some 6 ∧
    handleTab [] (fun _ => true) 4 false = none :=
  ⟨((handleTab_spec (fun _ => true) 6).2 4 [5, 6]).2 (Or.inl (by decide)),
   ((handleTab_spec (fun _ => true) 4).2 4 [5, 6]).1 (Or.inl rfl),
   (handleTab_spec (fun _ => true) 4).1 false⟩

/-- Delivering always empties the resolve slot. -/
theorem pendingResolve_deliver (r : ModalResult) (s : SysState) :
    (deliver r s).pendingResolve = none := by
  cases hp : s.pendingResolve <;> simp [deliver, hp]

/-- Delivering does not change the id counter. -/
theorem nextId_deliver (r : ModalResult) (s : SysState) :
    (deliver r s).nextId = s.nextId := by
  cases hp : s.pendingResolve <;> simp [deliver, hp]

/-- Delivering appends the pending id (if any) to the delivered-id log. -/
theorem resolvedIds_deliver (r : ModalResult) (s : SysState) :
    resolvedIds (deliver r s) =
      resolvedIds s ++
        (match s.pendingResolve with | some id => [id] | none => []) := by
  cases hp : s.pendingResolve <;> simp [deliver, hp, resolvedIds]

/-- C7: pressing Escape while the modal's key listener is registered invokes
the close callback exactly once, delivers the `null` result to the pending
deferred, empties the slot, closes the modal, and returns focus to the
element saved when the modal opened. -/
theorem escape_close_spec (s : SysState) (id : Nat) (fe : Nat)
    (hl : s.listenerOn = true) (hp : s.pendingResolve = some id)
    (hs : s.savedFocus = some fe) :
    (step s Ev.escapeKey).closeCalls = s.closeCalls + 1 ∧
    (step s Ev.escapeKey).resolutions = s.resolutions ++ [(id, none)] ∧
    (step s Ev.escapeKey).pendingResolve = none ∧
    (step s Ev.escapeKey).isOpen = false ∧
    (step s Ev.escapeKey).docFocus = fe := by
  simp [step, hl, closeViaCallback, teardownEffect, pageClose, deliver, hp, hs]

/-- Witness for C7: open the modal (focus starts on element 0), let the
focus-delay timer move focus into the dialog, press Escape: one close
callback, the first promise resolved with `null`, focus back on element 0. -/
theorem escape_close_spec_witness :
    (step (run initState [Ev.openModal, Ev.timerFires]) Ev.escapeKey).closeCalls =
      (run initState [Ev.openModal, Ev.timerFires]).closeCalls + 1 ∧
    (step (run initState [Ev.openModal, Ev.timerFires]) Ev.escapeKey).resolutions =
      (run initState [Ev.openModal, Ev.timerFires]).resolutions ++ [(0, none)] ∧
    (step (run initState [Ev.openModal, Ev.timerFires]) Ev.escapeKey).docFocus = 0 :=
  ⟨(escape_close_spec _ 0 0 (by decide) (by decide) (by decide)).1,
   (escape_close_spec _ 0 0 (by decide) (by decide) (by decide)).2.1,
   (escape_close_spec _ 0 0 (by decide) (by decide) (by decide)).2.2.2.2⟩

/-- C8: from an open state with the listener registered and a form passing
validation, each of the four close causes — Escape, backdrop click, cancel,
successful submit — produces the identical document-level teardown: key
listener unregistered, scroll restored, focus-delay timer cleared, focus
returned to the element captured on open; no other document-level field of
the model is touched. -/
theorem teardown_uniform_spec (s : SysState)
    (hopen : s.isOpen = true) (hl : s.listenerOn = true)
    (hv : hasNoErrors (validateForm s.form.values) = true) :
    ∀ e ∈ [Ev.escapeKey, Ev.backdropClick, Ev.cancelClick, Ev.submitForm],
      docState (step s e) = (false, false, false, s.savedFocus.getD s.docFocus) := by
  intro e he
  simp only [List.mem_cons, List.not_mem_nil, or_false] at he
  rcases he with rfl | rfl | rfl | rfl <;>
    cases hp : s.pendingResolve <;>
      simp [step, hopen, hl, hv, closeViaCallback, teardownEffect, pageClose,
        pageSubmit, deliver, handleSubmit, docState, hp]

/-- Witness for C8: after opening and filling in valid values, a successful
submit leaves the released document state with focus back on element 0. -/
theorem teardown_uniform_spec_witness :
    docState (step (run initState [Ev.openModal, Ev.input Field.name "Alice",
        Ev.input Field.email "alice@example.com"]) Ev.submitForm) =
      (false, false, false, 0) :=
  teardown_uniform_spec
    (run initState [Ev.openModal, Ev.input Field.name "Alice",
      Ev.input Field.email "alice@example.com"])
    (by decide) (by decide) (by decide) Ev.submitForm (by decide)

/-- Opening the modal never changes the Modal component form state. -/
theorem form_step_openModal (s : SysState) :
    (step s Ev.openModal).form = s.form := by
  cases ho : s.isOpen <;> simp [step, ho, setupEffect]

/-- An `onClose` invocation never changes the Modal component form state. -/
theorem form_closeViaCallback (s : SysState) :
    (closeViaCallback s).form = s.form := by
  cases hp : s.pendingResolve <;>
    simp [closeViaCallback, teardownEffect, pageClose, deliver, hp]

/-- C5 counterexample: open, type "X" into the name field, close with
Escape, open again — the new open session still shows name value "X" instead
of the initial empty state, so form state does persist across open sessions
when the close was not a successful submit. -/
theorem form_state_persists_counterexample :
    (run initState [Ev.openModal, Ev.input Field.name "X", Ev.escapeKey,
        Ev.openModal]).isOpen = true ∧
    (run initState [Ev.openModal, Ev.input Field.name "X", Ev.escapeKey,
        Ev.openModal]).form.values.name = "X" :=
  ⟨by decide, by decide⟩

/-- C5 (amended): the form state is reset for the next open session only by
a successful submit; a close via Escape, backdrop click, or cancel leaves
the previous session's values, errors, and touched flags in place for the
next open (the Modal component instance stays mounted while closed). -/
theorem form_reset_only_on_successful_submit (s : SysState)
    (hopen : s.isOpen = true) (hl : s.listenerOn = true) :
    (hasNoErrors (validateForm s.form.values) = true →
      (run s [Ev.submitForm, Ev.openModal]).form = initialFormState) ∧
    (run s [Ev.escapeKey, Ev.openModal]).form = s.form ∧
    (run s [Ev.backdropClick, Ev.openModal]).form = s.form ∧
    (run s [Ev.cancelClick, Ev.openModal]).form = s.form := by
  refine ⟨fun hv => ?_, ?_, ?_, ?_⟩
  · show (step (step s Ev.submitForm) Ev.openModal).form = initialFormState
    rw [form_step_openModal]
    cases hp : s.pendingResolve <;>
      simp [step, hopen, handleSubmit, hv, pageSubmit, deliver,
        teardownEffect, hp]
  · show (step (step s Ev.escapeKey) Ev.openModal).form = s.form
    rw [form_step_openModal]
    simp [step, hl, form_closeViaCallback]
  · show (step (step s Ev.backdropClick) Ev.openModal).form = s.form
    rw [form_step_openModal]
    simp [step, hopen, form_closeViaCallback]
  · show (step (step s Ev.cancelClick) Ev.openModal).form = s.form
    rw [form_step_openModal]
    simp [step, hopen, form_closeViaCallback]

/-- Witness for C5 (amended): open, fill in valid values, submit, open
again — the new session starts from the initial empty form state. -/
theorem form_reset_only_on_successful_submit_witness :
    (run (run initState [Ev.openModal, Ev.input Field.name "Alice",
        Ev.input Field.email "alice@example.com"])
      [Ev.submitForm, Ev.openModal]).form = initialFormState :=
  (form_reset_only_on_successful_submit
    (run initState [Ev.openModal, Ev.input Field.name "Alice",
      Ev.input Field.email "alice@example.com"])
    (by decide) (by decide)).1 (by decide)

/-- The request-id bookkeeping invariant: delivered ids and the pending id
are below the counter, a pending id has never been delivered, and no id has
been delivered twice. -/
def GoodIds (s : SysState) : Prop :=
  (∀ id ∈ resolvedIds s, id < s.nextId) ∧
  (∀ id, s.pendingResolve = some id → id < s.nextId ∧ id ∉ resolvedIds s) ∧
  (resolvedIds s).Nodup

/-- The initial state satisfies the id invariant. -/
theorem goodIds_initState : GoodIds initState := by
  refine ⟨?_, ?_, ?_⟩ <;> simp [initState, resolvedIds]

/-- The effect cleanup does not touch the id bookkeeping. -/
theorem goodIds_teardown (s : SysState) (h : GoodIds s) :
    GoodIds (teardownEffect s) := h

/-- Delivering preserves the id invariant. -/
theorem goodIds_deliver (r : ModalResult) (s : SysState) (h : GoodIds s) :
    GoodIds (deliver r s) := by
  obtain ⟨h1, h2, h3⟩ := h
  refine ⟨?_, ?_, ?_⟩
  · intro id hid
    rw [resolvedIds_deliver] at hid
    rw [nextId_deliver]
    cases hp : s.pendingResolve with
    | none =>
        rw [hp] at hid
        simp at hid
        exact h1 id hid
    | some pid =>
        rw [hp] at hid
        simp at hid
        rcases hid with hid | rfl
        · exact h1 id hid
        · exact (h2 id hp).1
  · intro id hpend
    rw [pendingResolve_deliver] at hpend
    exact absurd hpend (by simp)
  · rw [resolvedIds_deliver]
    cases hp : s.pendingResolve with
    | none => simpa using h3
    | some pid =>
        simp [List.nodup_append]
        exact ⟨h3, (h2 pid hp).2⟩

/-- An `onClose` invocation preserves the id invariant. -/
theorem goodIds_closeViaCallback (s : SysState) (h : GoodIds s) :
    GoodIds (closeViaCallback s) :=
  goodIds_teardown _ (goodIds_deliver none _ h)

/-- Every system event preserves the id invariant. -/
theorem goodIds_step (s : SysState) (e : Ev) (h : GoodIds s) :
    GoodIds (step s e) := by
  cases e with
  | openModal =>
      obtain ⟨h1, h2, h3⟩ := h
      have key : GoodIds { s with pendingResolve := some s.nextId, nextId := s.nextId + 1, isOpen := true } := by
        refine ⟨?_, ?_, ?_⟩
        · intro id hid
          exact Nat.lt_succ_of_lt (h1 id hid)
        · intro id hpend
          simp at hpend
          subst hpend
          exact ⟨Nat.lt_succ_self _, fun hin => absurd (h1 _ hin) (lt_irrefl _)⟩
        · exact h3
      cases ho : s.isOpen <;> simp [step, ho] <;> exact key
  | escapeKey =>
      cases hl : s.listenerOn <;> simp [step, hl]
      · exact h
      · exact goodIds_closeViaCallback _ h
  | backdropClick =>
      cases ho : s.isOpen <;> simp [step, ho]
      · exact h
      · exact goodIds_closeViaCallback _ h
  | cancelClick =>
      cases ho : s.isOpen <;> simp [step, ho]
      · exact h
      · exact goodIds_closeViaCallback _ h
  | submitForm =>
      cases ho : s.isOpen with
      | false => simpa [step, ho] using h
      | true =>
          cases hr : (handleSubmit s.form).2 with
          | nil =>
              have hstep : step s Ev.submitForm =
                  { s with form := (handleSubmit s.form).1 } := by
                simp [step, ho, hr]
              rw [hstep]
              exact h
          | cons d rest =>
              have hstep : step s Ev.submitForm =
                  teardownEffect (pageSubmit d
                    { s with form := (handleSubmit s.form).1 }) := by
                simp [step, ho, hr]
              rw [hstep]
              exact goodIds_teardown _ (goodIds_deliver (some d) _ h)
  | input f v =>
      cases ho : s.isOpen <;> simp [step, ho] <;> exact h
  | blurField f =>
      cases ho : s.isOpen <;> simp [step, ho] <;> exact h
  | timerFires =>
      cases ht : s.timerOn <;> simp [step, ht] <;> exact h

/-- Any run of system events preserves the id invariant. -/
theorem goodIds_run (s : SysState) (evs : List Ev) (h : GoodIds s) :
    GoodIds (run s evs) := by
  induction evs generalizing s with
  | nil => exact h
  | cons e rest ih => exact ih _ (goodIds_step s e h)

/-- A lost id: never delivered, no longer in the slot, and below the
counter. Such an id can never be delivered later. -/
def IdLost (id : Nat) (s : SysState) : Prop :=
  id ∉ resolvedIds s ∧ s.pendingResolve ≠ some id ∧ id < s.nextId

/-- Delivering preserves lostness. -/
theorem idLost_deliver (id : Nat) (r : ModalResult) (s : SysState)
    (h : IdLost id s) : IdLost id (deliver r s) := by
  obtain ⟨h1, h2, h3⟩ := h
  refine ⟨?_, ?_, ?_⟩
  · rw [resolvedIds_deliver]
    cases hp : s.pendingResolve with
    | none => simpa using h1
    | some pid =>
        simp
        exact ⟨h1, fun hc => h2 (by rw [hp, hc])⟩
  · rw [pendingResolve_deliver]
    simp
  · rw [nextId_deliver]
    exact h3

/-- Every system event preserves lostness. -/
theorem idLost_step (id : Nat) (s : SysState) (e : Ev) (h : IdLost id s) :
    IdLost id (step s e) := by
  obtain ⟨h1, h2, h3⟩ := h
  cases e with
  | openModal =>
      have key : IdLost id { s with pendingResolve := some s.nextId, nextId := s.nextId + 1, isOpen := true } := by
        refine ⟨h1, ?_, Nat.lt_succ_of_lt h3⟩
        simp
        omega
      cases ho : s.isOpen <;> simp [step, ho] <;> exact key
  | escapeKey =>
      cases hl : s.listenerOn <;> simp [step, hl]
      · exact ⟨h1, h2, h3⟩
      · exact idLost_deliver id none _ ⟨h1, h2, h3⟩
  | backdropClick =>
      cases ho : s.isOpen <;> simp [step, ho]
      · exact ⟨h1, h2, h3⟩
      · exact idLost_deliver id none _ ⟨h1, h2, h3⟩
  | cancelClick =>
      cases ho : s.isOpen <;> simp [step, ho]
      · exact ⟨h1, h2, h3⟩
      · exact idLost_deliver id none _ ⟨h1, h2, h3⟩
  | submitForm =>
      cases ho : s.isOpen with
      | false => simpa [step, ho] using ⟨h1, h2, h3⟩
      | true =>
          cases hr : (handleSubmit s.form).2 with
          | nil =>
              have hstep : step s Ev.submitForm =
                  { s with form := (handleSubmit s.form).1 } := by
                simp [step, ho, hr]
              rw [hstep]
              exact ⟨h1, h2, h3⟩
          | cons d rest =>
              have hstep : step s Ev.submitForm =
                  teardownEffect (pageSubmit d
                    { s with form := (handleSubmit s.form).1 }) := by
                simp [step, ho, hr]
              rw [hstep]
              exact idLost_deliver id (some d) _ ⟨h1, h2, h3⟩
  | input f v =>
      cases ho : s.isOpen <;> simp [step, ho] <;> exact ⟨h1, h2, h3⟩
  | blurField f =>
      cases ho : s.isOpen <;> simp [step, ho] <;> exact ⟨h1, h2, h3⟩
  | timerFires =>
      cases ht : s.timerOn <;> simp [step, ht] <;> exact ⟨h1, h2, h3⟩

/-- Any run of system events preserves lostness. -/
theorem idLost_run (id : Nat) (s : SysState) (evs : List Ev)
    (h : IdLost id s) : IdLost id (run s evs) := by
  induction evs generalizing s with
  | nil => exact h
  | cons e rest ih => exact ih _ (idLost_step id s e h)

/-- C9: the deferred result is a single-shot channel. Along any event run
from the initial state, (a) every promise receives at most one fulfillment;
and (b) if a request is pending and the modal is opened again, the slot is
overwritten with the fresh request id and the overwritten request is never
fulfilled by any later events. -/
theorem deferred_single_shot_spec :
    (∀ (evs : List Ev) (id : Nat),
      (resolvedIds (run initState evs)).count id ≤ 1) ∧
    (∀ (evs : List Ev) (id : Nat),
      (run initState evs).pendingResolve = some id →
        (step (run initState evs) Ev.openModal).pendingResolve =
          some (run initState evs).nextId ∧
        ∀ evs2 : List Ev,
          id ∉ resolvedIds (run (step (run initState evs) Ev.openModal) evs2)) := by
  constructor
  · intro evs id
    have hg := goodIds_run initState evs goodIds_initState
    exact (List.nodup_iff_count_le_one.mp hg.2.2) id
  · intro evs id hpend
    have hg := goodIds_run initState evs goodIds_initState
    have hlt := (hg.2.1 id hpend).1
    have hnin := (hg.2.1 id hpend).2
    constructor
    · cases ho : (run initState evs).isOpen <;>
        simp [step, ho, setupEffect]
    · intro evs2
      have hlost : IdLost id (step (run initState evs) Ev.openModal) := by
        have key : IdLost id { run initState evs with pendingResolve := some (run initState evs).nextId, nextId := (run initState evs).nextId + 1, isOpen := true } := by
          refine ⟨hnin, ?_, Nat.lt_succ_of_lt hlt⟩
          simp
          omega
        cases ho : (run initState evs).isOpen <;> simp [step, ho] <;> exact key
      exact (idLost_run id _ evs2 hlost).1

/-- Witness for C9: open twice without resolving; the first request (id 0)
is overwritten by the second (id 1) and closing afterwards fulfills only the
second. -/
theorem deferred_single_shot_spec_witness :
    (run initState [Ev.openModal]).pendingResolve = some 0 ∧
    0 ∉ resolvedIds (run (step (run initState [Ev.openModal]) Ev.openModal)
      [Ev.escapeKey]) :=
  ⟨by decide,
   (deferred_single_shot_spec.2 [Ev.openModal] 0 (by decide)).2 [Ev.escapeKey]⟩

end ModalForm
